import Mathlib

/-!
Verification of the playback/queue core of the subsonic-web client.

The definitions below are a shallow embedding of the player state machine
implemented in the repository (the `player` module and its interaction with
the audio backends).  JavaScript numbers used for times, durations and
volumes are modelled as rationals; queue indices, which the source stores as
JavaScript numbers that may be `-1`, are modelled as integers; the song
queue is a Lean list.  Backend and network side effects (play, pause,
scrobble reports, queue-sync pushes, ...) are modelled as an explicit effect
trace returned alongside the new state.
-/

namespace Subsonic

/-- A track, as used by the player: only the identifier and a title matter
for the queue logic (the source `Song` has more metadata fields that the
player never branches on). -/
structure Song where
  id : String
  title : String := ""
deriving DecidableEq, Repr

/-- Repeat mode of the player, source type `RepeatMode = "off" | "all" | "one"`. -/
inductive RepeatMode where
  | off
  | all
  | one
deriving DecidableEq, Repr

/-- Which audio backend is active, source `currentBackendType : "html5" | "mpv"`. -/
inductive BackendType where
  | html5
  | mpv
deriving DecidableEq, Repr

/-- The observable player state, a faithful copy of the source
`interface PlayerState`.  The source field `repeat` is named `repeatMode`
here because `repeat` is reserved in Lean. -/
@[ext] structure PlayerState where
  currentTrack : Option Song
  queue : List Song
  originalQueue : List Song
  queueIndex : Int
  isPlaying : Bool
  volume : ℚ
  currentTime : ℚ
  duration : ℚ
  isLoading : Bool
  shuffle : Bool
  repeatMode : RepeatMode
deriving DecidableEq, Repr

/-- The module-level bookkeeping surrounding `playerState` in the source:
the scrobble bookkeeping variables `scrobbledTrackId` and
`nowPlayingReported`, the active backend type and whether a backend
instance currently exists (`currentBackend !== null`). -/
@[ext] structure CoreState where
  player : PlayerState
  scrobbledTrackId : Option String
  nowPlayingReported : Option String
  backendType : BackendType
  hasBackend : Bool
deriving DecidableEq, Repr

/-- The record returned by `clearQueue` and consumed by `restoreQueueState`. -/
structure PreviousQueueState where
  previousQueue : List Song
  previousOriginalQueue : List Song
  previousQueueIndex : Int
deriving DecidableEq, Repr

/-- External side effects issued by the player: backend transport commands,
scrobble reports, the electron mpv auto-next notification and the debounced
queue-sync push. -/
inductive Effect where
  | backendPlay (url : String)
  | backendSetQueue (currentUrl : String) (nextUrl : Option String) (startPaused : Bool)
  | backendSetQueueNext (url : String)
  | backendPause
  | backendResume
  | backendStop
  | backendSeek (time : ℚ)
  | scrobbleReport (trackId : String) (submission : Bool)
  | mpvAutoNext (url : Option String)
  | saveQueue
deriving DecidableEq, Repr

/-- JavaScript `array[i]` for a possibly negative index: `undefined`
(here `none`) when out of range. -/
def getAtInt (l : List Song) (i : Int) : Option Song :=
  if 0 ≤ i then l[i.toNat]? else none

/-- JavaScript `[...l.slice(0, i), a, ...l.slice(i)]`: insert at position `i`,
appending at the end when `i` is at least the length. -/
def jsInsertAt (l : List Song) (i : Nat) (a : Song) : List Song :=
  l.take i ++ a :: l.drop i

/-- JavaScript `l.filter((_, k) => k !== i)` for a natural index: drop the
`i`-th element, keeping the list unchanged when `i` is out of range. -/
def jsRemoveAt (l : List Song) (i : Nat) : List Song :=
  l.take i ++ l.drop (i + 1)

/-- JavaScript `l.filter((_, k) => k !== i)` where `i` is the (integer)
queue index: a negative index removes nothing. -/
def filterOutIdx (l : List Song) (i : Int) : List Song :=
  if 0 ≤ i then jsRemoveAt l i.toNat else l

/-- Index of the first element satisfying the predicate. -/
def findIdxOpt (pred : Song → Bool) : List Song → Option Nat
  | [] => none
  | x :: xs => if pred x then some 0 else (findIdxOpt pred xs).map (· + 1)

/-- JavaScript `Array.prototype.findIndex`: first matching index, `-1` when
no element matches. -/
def jsFindIndex (pred : Song → Bool) (l : List Song) : Int :=
  match findIdxOpt pred l with
  | some n => (n : Int)
  | none => -1

/-- The stream URL resolved for a track id (`getStreamUrl`); the player only
passes it through to the backend, so its exact shape is irrelevant. -/
def streamUrl (trackId : String) : String :=
  "/rest/stream?id=" ++ trackId

/-- The source `initialState` constant; the volume field is read from
persisted storage (`getSavedVolume()`), so it is a parameter here. -/
def initialState (savedVolume : ℚ) : PlayerState where
  currentTrack := none
  queue := []
  originalQueue := []
  queueIndex := -1
  isPlaying := false
  volume := savedVolume
  currentTime := 0
  duration := 0
  isLoading := false
  shuffle := false
  repeatMode := RepeatMode.off

/-- The initial module state: `playerState = {...initialState}`, both
scrobble bookkeeping variables `null`, no backend instantiated yet. -/
def initCore (savedVolume : ℚ) : CoreState where
  player := initialState savedVolume
  scrobbledTrackId := none
  nowPlayingReported := none
  backendType := BackendType.html5
  hasBackend := false

/-- Source `playSong(song, queue?, startIndex?)`, success path of the
stream-URL resolution.  It resets `scrobbledTrackId`, installs the new
queue/index/current track (keeping a non-empty `originalQueue` as is),
asks the backend to play (using `setQueue` with the next track on mpv for
gapless playback), and reports now playing when not already reported for
this song.  `getAudioBackend()` instantiates a backend, hence
`hasBackend := true`. -/
def playSong (s : CoreState) (song : Song) (queueArg : Option (List Song))
    (startIndex : Option Int) : CoreState × List Effect :=
  let newQueue := queueArg.getD [song]
  let currentIndex := startIndex.getD 0
  let p := s.player
  let p1 : PlayerState :=
    { p with
      currentTrack := some song
      queue := newQueue
      originalQueue := if 0 < p.originalQueue.length then p.originalQueue else newQueue
      queueIndex := currentIndex
      isLoading := true }
  let playEffs : List Effect :=
    if s.backendType = BackendType.mpv ∧ currentIndex + 1 < (newQueue.length : Int) then
      match getAtInt newQueue (currentIndex + 1) with
      | some nextTrack =>
          [Effect.backendSetQueue (streamUrl song.id) (some (streamUrl nextTrack.id)) false]
      | none => [Effect.backendPlay (streamUrl song.id)]
    else
      [Effect.backendPlay (streamUrl song.id)]
  let reported : Bool := s.nowPlayingReported = some song.id
  let npEffs : List Effect :=
    if reported then [] else [Effect.scrobbleReport song.id false]
  ({ s with
      player := p1
      scrobbledTrackId := none
      nowPlayingReported := if reported then s.nowPlayingReported else some song.id
      hasBackend := true },
   Effect.saveQueue :: playEffs ++ npEffs)

/-- Source `seek(time)`: optimistic state update, then a backend seek. -/
def seek (s : CoreState) (time : ℚ) : CoreState × List Effect :=
  ({ s with player := { s.player with currentTime := time } }, [Effect.backendSeek time])

/-- Source `playNext()`: no-op on an empty queue; with repeat "one" and a
current track, restart in place; otherwise advance, wrapping to index 0 on
repeat "all" and stopping (pause, `isPlaying := false`) at the end of the
queue otherwise.  The inner `none` match arm is unreachable for the
indices the player produces. -/
def playNext (s : CoreState) : CoreState × List Effect :=
  let p := s.player
  if p.queue.length = 0 then (s, [])
  else if p.repeatMode = RepeatMode.one ∧ p.currentTrack.isSome then
    let (s1, effs) := seek s 0
    (s1, effs ++ [Effect.backendResume])
  else
    let nextIndex := p.queueIndex + 1
    if nextIndex < (p.queue.length : Int) then
      match getAtInt p.queue nextIndex with
      | some t => playSong s t (some p.queue) (some nextIndex)
      | none => (s, [])
    else if p.repeatMode = RepeatMode.all then
      match getAtInt p.queue 0 with
      | some t => playSong s t (some p.queue) (some 0)
      | none => (s, [])
    else
      ({ s with player := { p with isPlaying := false } }, [Effect.backendPause])

/-- Source `playPrevious()`: no-op on an empty queue; more than 3 seconds
in, restart the current track; otherwise go to the previous index, wrap to
the last track when at the start with repeat "all", and restart at 0
otherwise. -/
def playPrevious (s : CoreState) : CoreState × List Effect :=
  let p := s.player
  if p.queue.length = 0 then (s, [])
  else if 3 < p.currentTime then seek s 0
  else
    let prevIndex := p.queueIndex - 1
    if 0 ≤ prevIndex then
      match getAtInt p.queue prevIndex with
      | some t => playSong s t (some p.queue) (some prevIndex)
      | none => (s, [])
    else if p.repeatMode = RepeatMode.all then
      match getAtInt p.queue ((p.queue.length : Int) - 1) with
      | some t => playSong s t (some p.queue) (some ((p.queue.length : Int) - 1))
      | none => (s, [])
    else
      seek s 0

/-- Source `addToQueue(songs)`: append to both the queue and the original
queue; the index and current track are untouched. -/
def addToQueue (p : PlayerState) (songs : List Song) : PlayerState :=
  { p with
    queue := p.queue ++ songs
    originalQueue := p.originalQueue ++ songs }

/-- Source `playNextInQueue(song)`: insert right after the current index in
both sequences. -/
def playNextInQueue (p : PlayerState) (song : Song) : PlayerState :=
  { p with
    queue := jsInsertAt p.queue (p.queueIndex + 1).toNat song
    originalQueue := jsInsertAt p.originalQueue (p.queueIndex + 1).toNat song }

/-- Source `clearQueue()`: with a current track and a longer queue, collapse
to just the current track; otherwise stop the backend and reset to the
initial state keeping the live volume (`{...initialState, volume}`).  The
previous queue state is returned for undo. -/
def clearQueue (p : PlayerState) : PlayerState × PreviousQueueState × List Effect :=
  let previousState : PreviousQueueState :=
    ⟨p.queue, p.originalQueue, p.queueIndex⟩
  match p.currentTrack with
  | some t =>
    if 1 < p.queue.length then
      ({ p with queue := [t], originalQueue := [t], queueIndex := 0 },
       previousState, [])
    else
      ({ initialState p.volume with volume := p.volume }, previousState,
       [Effect.backendStop])
  | none =>
      ({ initialState p.volume with volume := p.volume }, previousState,
       [Effect.backendStop])

/-- Source `restoreQueueState(state)`: no-op on an empty saved queue,
otherwise restore both sequences, the index and the current track
(`previousQueue[previousQueueIndex]`, which is `undefined` — here `none`
— when the saved index is out of range). -/
def restoreQueueState (p : PlayerState) (st : PreviousQueueState) : PlayerState :=
  if st.previousQueue.length = 0 then p
  else
    { p with
      queue := st.previousQueue
      originalQueue := st.previousOriginalQueue
      queueIndex := st.previousQueueIndex
      currentTrack := getAtInt st.previousQueue st.previousQueueIndex }

/-- Source `removeFromQueue(index)`: refuse (returning `null`) to remove
the currently playing song; otherwise drop position `index` from both
sequences, shifting the current index down when the removal was before it,
and return the removed song with its index. -/
def removeFromQueue (p : PlayerState) (index : Nat) :
    PlayerState × Option (Option Song × Nat) :=
  if (index : Int) = p.queueIndex ∧ p.currentTrack.isSome then (p, none)
  else
    let removedSong := p.queue[index]?
    let newQueueIndex := if (index : Int) < p.queueIndex then p.queueIndex - 1 else p.queueIndex
    ({ p with
        queue := jsRemoveAt p.queue index
        originalQueue := jsRemoveAt p.originalQueue index
        queueIndex := newQueueIndex },
     some (removedSong, index))

/-- Source `insertIntoQueue(song, index)`: insert into both sequences,
shifting the current index up when the insertion is at or before it. -/
def insertIntoQueue (p : PlayerState) (song : Song) (index : Nat) : PlayerState :=
  { p with
    queue := jsInsertAt p.queue index song
    originalQueue := jsInsertAt p.originalQueue index song
    queueIndex := if (index : Int) ≤ p.queueIndex then p.queueIndex + 1 else p.queueIndex }

/-- Source `toggleShuffle()`.  Enabling keeps the current song first and
shuffles the rest (`sh` stands for the `shuffleArray` Fisher-Yates pass,
kept abstract since it draws from `Math.random`), saving the pre-shuffle
queue in `originalQueue` when that was empty; disabling restores
`originalQueue` and relocates the index by identity lookup of the current
track, falling back to 0. -/
def toggleShuffle (sh : List Song → List Song) (p : PlayerState) : PlayerState :=
  if p.shuffle = false then
    let remainingSongs := filterOutIdx p.queue p.queueIndex
    let shuffledRemaining := sh remainingSongs
    let newQueue :=
      match p.currentTrack with
      | some c => c :: shuffledRemaining
      | none => shuffledRemaining
    { p with
      shuffle := true
      originalQueue := if 0 < p.originalQueue.length then p.originalQueue else p.queue
      queue := newQueue
      queueIndex := 0 }
  else
    let newIndex : Int :=
      match p.currentTrack with
      | some c => jsFindIndex (fun s => s.id = c.id) p.originalQueue
      | none => 0
    { p with
      shuffle := false
      queue := p.originalQueue
      queueIndex := if 0 ≤ newIndex then newIndex else 0 }

/-- The scrobble branch of the `onTimeUpdate` backend event handler: update
time and duration, and when a current track has not been scrobbled yet and
the duration is known, submit the completed scrobble as soon as the elapsed
time reaches `min(240, duration * 0.5)`. -/
def onTimeUpdate (s : CoreState) (time duration : ℚ) : CoreState × List Effect :=
  let s1 : CoreState :=
    { s with player := { s.player with currentTime := time, duration := duration } }
  match s1.player.currentTrack with
  | some track =>
    if s1.scrobbledTrackId ≠ some track.id ∧ 0 < duration then
      let scrobbleThreshold := min 240 (duration * (1/2))
      if scrobbleThreshold ≤ time then
        ({ s1 with scrobbledTrackId := some track.id },
         [Effect.scrobbleReport track.id true])
      else (s1, [])
    else (s1, [])
  | none => (s1, [])

/-- Source `handleAutoNext()`, fired when the mpv backend auto-advanced to
its preloaded next slot: advance the core index to match, reset the
scrobble bookkeeping, report now playing (at most once per track), preload
the following track into the backend next slot, notify the mpv process of
its own next URL, and schedule a queue-sync push.  No `play`/`setQueue`
backend command is issued.  The guard `0 ≤ nextIndex` is implicit in the
source: an auto-advance only occurs while a track is playing. -/
def handleAutoNext (s : CoreState) : CoreState × List Effect :=
  let p := s.player
  let nextIndex := p.queueIndex + 1
  if 0 ≤ nextIndex ∧ nextIndex < (p.queue.length : Int) then
    match getAtInt p.queue nextIndex with
    | some nextTrack =>
      let s1 : CoreState :=
        { s with
          scrobbledTrackId := none
          player :=
            { p with
              currentTrack := some nextTrack
              queueIndex := nextIndex
              currentTime := 0
              isLoading := false } }
      let reported : Bool := s1.nowPlayingReported = some nextTrack.id
      let s2 : CoreState :=
        if reported then s1 else { s1 with nowPlayingReported := some nextTrack.id }
      let npEffs : List Effect :=
        if reported then [] else [Effect.scrobbleReport nextTrack.id false]
      let followingIndex := nextIndex + 1
      let preloadEffs : List Effect :=
        if followingIndex < (p.queue.length : Int) ∧ s.hasBackend then
          match getAtInt p.queue followingIndex with
          | some ft => [Effect.backendSetQueueNext (streamUrl ft.id)]
          | none => []
        else []
      let mpvEffs : List Effect :=
        if followingIndex < (p.queue.length : Int) then
          match getAtInt p.queue followingIndex with
          | some ft => [Effect.mpvAutoNext (some (streamUrl ft.id))]
          | none => [Effect.mpvAutoNext none]
        else [Effect.mpvAutoNext none]
      (s2, npEffs ++ preloadEffs ++ mpvEffs ++ [Effect.saveQueue])
    | none => (s, [])
  else (s, [])

/-! ### Helper lemmas about the JavaScript-style list operations -/

theorem jsInsertAt_length (l : List Song) (i : Nat) (a : Song) :
    (jsInsertAt l i a).length = l.length + 1 := by
  simp [jsInsertAt]
  omega

theorem jsRemoveAt_length (l : List Song) (i : Nat) :
    (jsRemoveAt l i).length = if i < l.length then l.length - 1 else l.length := by
  simp [jsRemoveAt]
  split <;> omega

theorem getElem?_lt_length {l : List Song} {n : Nat} {a : Song}
    (h : l[n]? = some a) : n < l.length := by
  by_contra hc
  rw [List.getElem?_len_le (by omega)] at h
  cases h

theorem getAtInt_isSome (l : List Song) (i : Int) (h0 : 0 ≤ i)
    (h1 : i < (l.length : Int)) : ∃ a, getAtInt l i = some a := by
  have hlt : i.toNat < l.length := by omega
  exact ⟨l[i.toNat], by simp [getAtInt, h0, List.getElem?_eq_getElem hlt]⟩

theorem getAtInt_some_bounds {l : List Song} {i : Int} {a : Song}
    (h : getAtInt l i = some a) : 0 ≤ i ∧ i < (l.length : Int) := by
  unfold getAtInt at h
  split at h
  · have := getElem?_lt_length h
    omega
  · cases h

theorem findIdxOpt_some_spec (pred : Song → Bool) (l : List Song) (n : Nat)
    (h : findIdxOpt pred l = some n) :
    n < l.length ∧ ∃ e, l[n]? = some e ∧ pred e = true := by
  induction l generalizing n with
  | nil => simp [findIdxOpt] at h
  | cons x xs ih =>
    by_cases hx : pred x
    · simp [findIdxOpt, hx] at h
      subst h
      exact ⟨by simp, x, by simp, hx⟩
    · simp [findIdxOpt, hx] at h
      obtain ⟨m, hm, rfl⟩ := h
      obtain ⟨hlt, e, he, hpe⟩ := ih m hm
      exact ⟨by simpa using Nat.succ_lt_succ hlt, e, by simpa using he, hpe⟩

theorem findIdxOpt_isSome_of_mem (pred : Song → Bool) (l : List Song) (a : Song)
    (ha : a ∈ l) (hp : pred a = true) : ∃ n, findIdxOpt pred l = some n := by
  induction l with
  | nil => cases ha
  | cons x xs ih =>
    by_cases hx : pred x
    · exact ⟨0, by simp [findIdxOpt, hx]⟩
    · rcases List.mem_cons.mp ha with rfl | hmem
      · exact absurd hp (by simp [hx])
      · obtain ⟨n, hn⟩ := ih hmem
        exact ⟨n + 1, by simp [findIdxOpt, hx, hn]⟩

/-! ### The queue well-formedness invariant (claim C1) -/

/-- The invariant exactly as the specification states it: index bounds
whenever a current track exists, and `queueIndex = -1` if and only if the
queue is empty. -/
def QueueInvSpec (p : PlayerState) : Prop :=
  (p.currentTrack.isSome = true →
    0 ≤ p.queueIndex ∧ p.queueIndex < (p.queue.length : Int)) ∧
  (p.queueIndex = -1 ↔ p.queue = [])

instance (p : PlayerState) : Decidable (QueueInvSpec p) := by
  unfold QueueInvSpec
  infer_instance

/-- The invariant the code actually maintains: index bounds whenever a
current track exists, `queueIndex = -1` whenever there is no current track,
and no current track on an empty queue.  (A non-empty queue with
`queueIndex = -1` is a legitimate state: `addToQueue` on an idle player
produces it.) -/
def QueueInv (p : PlayerState) : Prop :=
  (p.currentTrack.isSome = true →
    0 ≤ p.queueIndex ∧ p.queueIndex < (p.queue.length : Int)) ∧
  (p.currentTrack = none → p.queueIndex = -1) ∧
  (p.queue = [] → p.currentTrack = none)

instance (p : PlayerState) : Decidable (QueueInv p) := by
  unfold QueueInv
  infer_instance

/-- One invocation of an exported player action, as dispatched from the UI:
`playSong` is called with an index that is valid for the queue it installs,
`restoreQueueState` with a snapshot previously returned by `clearQueue`
(whose saved index is `-1` or in range), and `toggleShuffle` while a track
is current (its UI button lives in the player bar) with a consistent
shuffle bookkeeping. -/
inductive PStep : CoreState → CoreState → Prop where
  | playSongStep (s : CoreState) (song : Song) (queueArg : Option (List Song))
      (startIndex : Option Int)
      (hvalid : 0 ≤ startIndex.getD 0 ∧
        startIndex.getD 0 < ((queueArg.getD [song]).length : Int)) :
      PStep s (playSong s song queueArg startIndex).1
  | playNextStep (s : CoreState) : PStep s (playNext s).1
  | playPreviousStep (s : CoreState) : PStep s (playPrevious s).1
  | addToQueueStep (s : CoreState) (songs : List Song) :
      PStep s { s with player := addToQueue s.player songs }
  | playNextInQueueStep (s : CoreState) (song : Song) :
      PStep s { s with player := playNextInQueue s.player song }
  | removeFromQueueStep (s : CoreState) (index : Nat) :
      PStep s { s with player := (removeFromQueue s.player index).1 }
  | insertIntoQueueStep (s : CoreState) (song : Song) (index : Nat) :
      PStep s { s with player := insertIntoQueue s.player song index }
  | clearQueueStep (s : CoreState) :
      PStep s { s with player := (clearQueue s.player).1 }
  | restoreQueueStateStep (s : CoreState) (st : PreviousQueueState)
      (hst : st.previousQueue = [] ∨
        (-1 ≤ st.previousQueueIndex ∧
          st.previousQueueIndex < (st.previousQueue.length : Int))) :
      PStep s { s with player := restoreQueueState s.player st }
  | toggleShuffleStep (s : CoreState) (sh : List Song → List Song)
      (hcur : s.player.currentTrack.isSome = true)
      (horig : s.player.shuffle = true → s.player.originalQueue ≠ []) :
      PStep s { s with player := toggleShuffle sh s.player }

theorem playSong_inv (s : CoreState) (song : Song) (queueArg : Option (List Song))
    (startIndex : Option Int)
    (hvalid : 0 ≤ startIndex.getD 0 ∧
      startIndex.getD 0 < ((queueArg.getD [song]).length : Int)) :
    QueueInv (playSong s song queueArg startIndex).1.player := by
  obtain ⟨h0, h1⟩ := hvalid
  refine ⟨?_, ?_, ?_⟩
  · intro _
    simpa [playSong] using ⟨h0, h1⟩
  · intro h
    simp [playSong] at h
  · intro h
    simp [playSong] at h
    rw [h] at h1
    simp at h1
    omega

theorem pstep_preserves {s s2 : CoreState} (hstep : PStep s s2)
    (hInv : QueueInv s.player) : QueueInv s2.player := by
  obtain ⟨h1, h2, h3⟩ := hInv
  cases hstep with
  | playSongStep song queueArg startIndex hvalid =>
    exact playSong_inv s song queueArg startIndex hvalid
  | playNextStep =>
    show QueueInv (playNext s).1.player
    unfold playNext
    by_cases hlen : s.player.queue.length = 0
    · rw [if_pos hlen]; exact ⟨h1, h2, h3⟩
    rw [if_neg hlen]
    by_cases hone : s.player.repeatMode = RepeatMode.one ∧ s.player.currentTrack.isSome = true
    · rw [if_pos hone]
      exact ⟨by simpa [seek] using h1, by simpa [seek] using h2, by simpa [seek] using h3⟩
    rw [if_neg hone]
    by_cases hlt : s.player.queueIndex + 1 < (s.player.queue.length : Int)
    · rw [if_pos hlt]
      have hge : 0 ≤ s.player.queueIndex + 1 := by
        cases hct : s.player.currentTrack with
        | none => have := h2 hct; omega
        | some t => have := h1 (by simp [hct]); omega
      obtain ⟨t, ht⟩ := getAtInt_isSome _ _ hge hlt
      rw [ht]
      exact playSong_inv _ _ _ _ ⟨hge, hlt⟩
    rw [if_neg hlt]
    by_cases hall : s.player.repeatMode = RepeatMode.all
    · rw [if_pos hall]
      have hlen0 : (0 : Int) < (s.player.queue.length : Int) := by omega
      obtain ⟨t, ht⟩ := getAtInt_isSome _ 0 le_rfl hlen0
      rw [ht]
      exact playSong_inv _ _ _ _ ⟨le_rfl, hlen0⟩
    · rw [if_neg hall]
      exact ⟨h1, h2, h3⟩
  | playPreviousStep =>
    show QueueInv (playPrevious s).1.player
    unfold playPrevious
    by_cases hlen : s.player.queue.length = 0
    · rw [if_pos hlen]; exact ⟨h1, h2, h3⟩
    rw [if_neg hlen]
    by_cases htime : 3 < s.player.currentTime
    · rw [if_pos htime]
      exact ⟨by simpa [seek] using h1, by simpa [seek] using h2, by simpa [seek] using h3⟩
    rw [if_neg htime]
    by_cases hprev : 0 ≤ s.player.queueIndex - 1
    · rw [if_pos hprev]
      have hub : s.player.queueIndex - 1 < (s.player.queue.length : Int) := by
        cases hct : s.player.currentTrack with
        | none => have := h2 hct; omega
        | some t => have := h1 (by simp [hct]); omega
      obtain ⟨t, ht⟩ := getAtInt_isSome _ _ hprev hub
      rw [ht]
      exact playSong_inv _ _ _ _ ⟨hprev, hub⟩
    rw [if_neg hprev]
    by_cases hall : s.player.repeatMode = RepeatMode.all
    · rw [if_pos hall]
      have hge : (0 : Int) ≤ (s.player.queue.length : Int) - 1 := by omega
      have hlt : (s.player.queue.length : Int) - 1 < (s.player.queue.length : Int) := by omega
      obtain ⟨t, ht⟩ := getAtInt_isSome _ _ hge hlt
      rw [ht]
      exact playSong_inv _ _ _ _ ⟨hge, hlt⟩
    · rw [if_neg hall]
      exact ⟨by simpa [seek] using h1, by simpa [seek] using h2, by simpa [seek] using h3⟩
  | addToQueueStep songs =>
    refine ⟨?_, ?_, ?_⟩
    · intro hsome
      obtain ⟨ha, hb⟩ := h1 hsome
      refine ⟨ha, ?_⟩
      show s.player.queueIndex < ((s.player.queue ++ songs).length : Int)
      rw [List.length_append]
      push_cast
      omega
    · intro hnone
      exact h2 hnone
    · intro hq
      replace hq : s.player.queue ++ songs = [] := hq
      rw [List.append_eq_nil] at hq
      exact h3 hq.1
  | playNextInQueueStep song =>
    refine ⟨?_, ?_, ?_⟩
    · intro hsome
      obtain ⟨ha, hb⟩ := h1 hsome
      refine ⟨ha, ?_⟩
      show s.player.queueIndex <
        ((jsInsertAt s.player.queue (s.player.queueIndex + 1).toNat song).length : Int)
      rw [jsInsertAt_length]
      push_cast
      omega
    · intro hnone
      exact h2 hnone
    · intro hq
      replace hq : jsInsertAt s.player.queue (s.player.queueIndex + 1).toNat song = [] := hq
      have := congrArg List.length hq
      rw [jsInsertAt_length] at this
      simp at this
  | removeFromQueueStep index =>
    show QueueInv (removeFromQueue s.player index).1
    unfold removeFromQueue
    by_cases hguard : (index : Int) = s.player.queueIndex ∧ s.player.currentTrack.isSome = true
    · rw [if_pos hguard]
      exact ⟨h1, h2, h3⟩
    rw [if_neg hguard]
    cases hct : s.player.currentTrack with
    | some t =>
      have hb := h1 (by simp [hct])
      have hne : (index : Int) ≠ s.player.queueIndex := fun he => hguard ⟨he, by simp [hct]⟩
      refine ⟨?_, ?_, ?_⟩
      · intro _
        show 0 ≤ (if (index : Int) < s.player.queueIndex then s.player.queueIndex - 1
            else s.player.queueIndex) ∧
          (if (index : Int) < s.player.queueIndex then s.player.queueIndex - 1
            else s.player.queueIndex) < ((jsRemoveAt s.player.queue index).length : Int)
        rw [jsRemoveAt_length]
        by_cases hidx : (index : Int) < s.player.queueIndex
        · rw [if_pos hidx]
          by_cases hil : index < s.player.queue.length
          · rw [if_pos hil]; omega
          · rw [if_neg hil]; omega
        · rw [if_neg hidx]
          by_cases hil : index < s.player.queue.length
          · rw [if_pos hil]; omega
          · rw [if_neg hil]; omega
      · intro hnone
        cases (show (some t : Option Song) = none from hnone)
      · intro hq
        replace hq : jsRemoveAt s.player.queue index = [] := hq
        have hz : (jsRemoveAt s.player.queue index).length = 0 := by rw [hq]; rfl
        rw [jsRemoveAt_length] at hz
        by_cases hil : index < s.player.queue.length
        · rw [if_pos hil] at hz; omega
        · rw [if_neg hil] at hz; omega
    | none =>
      have hqi := h2 hct
      refine ⟨?_, ?_, ?_⟩
      · intro hsome
        cases (show (false : Bool) = true from hsome)
      · intro _
        show (if (index : Int) < s.player.queueIndex then s.player.queueIndex - 1
            else s.player.queueIndex) = -1
        rw [if_neg (by omega)]
        exact hqi
      · intro _
        rfl
  | insertIntoQueueStep song index =>
    refine ⟨?_, ?_, ?_⟩
    · intro hsome
      obtain ⟨ha, hb⟩ := h1 hsome
      show 0 ≤ (if (index : Int) ≤ s.player.queueIndex then s.player.queueIndex + 1
          else s.player.queueIndex) ∧
        (if (index : Int) ≤ s.player.queueIndex then s.player.queueIndex + 1
          else s.player.queueIndex) < ((jsInsertAt s.player.queue index song).length : Int)
      rw [jsInsertAt_length]
      by_cases hle : (index : Int) ≤ s.player.queueIndex
      · rw [if_pos hle]; push_cast; omega
      · rw [if_neg hle]; push_cast; omega
    · intro hnone
      replace hnone : s.player.currentTrack = none := hnone
      have hqi := h2 hnone
      show (if (index : Int) ≤ s.player.queueIndex then s.player.queueIndex + 1
          else s.player.queueIndex) = -1
      rw [if_neg (by omega)]
      exact hqi
    · intro hq
      replace hq : jsInsertAt s.player.queue index song = [] := hq
      have := congrArg List.length hq
      rw [jsInsertAt_length] at this
      simp at this
  | clearQueueStep =>
    show QueueInv (clearQueue s.player).1
    cases hct : s.player.currentTrack with
    | some t =>
      by_cases hlen : 1 < s.player.queue.length
      · refine ⟨?_, ?_, ?_⟩ <;> simp [clearQueue, hct, hlen]
      · refine ⟨?_, ?_, ?_⟩ <;> simp [clearQueue, hct, hlen, initialState]
    | none =>
      refine ⟨?_, ?_, ?_⟩ <;> simp [clearQueue, hct, initialState]
  | restoreQueueStateStep st hst =>
    show QueueInv (restoreQueueState s.player st)
    unfold restoreQueueState
    by_cases hlen : st.previousQueue.length = 0
    · rw [if_pos hlen]; exact ⟨h1, h2, h3⟩
    rw [if_neg hlen]
    have hb : -1 ≤ st.previousQueueIndex ∧
        st.previousQueueIndex < (st.previousQueue.length : Int) := by
      rcases hst with h | h
      · rw [h] at hlen; simp at hlen
      · exact h
    refine ⟨?_, ?_, ?_⟩
    · intro hsome
      replace hsome : (getAtInt st.previousQueue st.previousQueueIndex).isSome = true := hsome
      cases hg : getAtInt st.previousQueue st.previousQueueIndex with
      | none => rw [hg] at hsome; cases hsome
      | some a => exact getAtInt_some_bounds hg
    · intro hnone
      replace hnone : getAtInt st.previousQueue st.previousQueueIndex = none := hnone
      by_cases hge : 0 ≤ st.previousQueueIndex
      · obtain ⟨a, ha⟩ := getAtInt_isSome _ _ hge hb.2
        rw [ha] at hnone
        cases hnone
      · show st.previousQueueIndex = -1
        omega
    · intro hq
      replace hq : st.previousQueue = [] := hq
      rw [hq] at hlen
      simp at hlen
  | toggleShuffleStep sh hcur horig =>
    show QueueInv (toggleShuffle sh s.player)
    obtain ⟨c, hc⟩ := Option.isSome_iff_exists.mp hcur
    unfold toggleShuffle
    by_cases hsf : s.player.shuffle = false
    · rw [if_pos hsf, hc]
      refine ⟨?_, ?_, ?_⟩
      · intro _
        exact ⟨le_rfl, by simp⟩
      · intro hnone
        cases (show (some c : Option Song) = none from hnone)
      · intro hq
        cases (show c :: sh (filterOutIdx s.player.queue s.player.queueIndex) = [] from hq)
    · rw [if_neg hsf, hc]
      have hshuffle : s.player.shuffle = true := by
        cases hsb : s.player.shuffle
        · exact absurd hsb hsf
        · rfl
      have horig2 : s.player.originalQueue ≠ [] := horig hshuffle
      have hlen0 : 0 < s.player.originalQueue.length := by
        cases hoq : s.player.originalQueue
        · exact absurd hoq horig2
        · simp
      refine ⟨?_, ?_, ?_⟩
      · intro _
        show 0 ≤ (if 0 ≤ jsFindIndex (fun x => x.id = c.id) s.player.originalQueue then
            jsFindIndex (fun x => x.id = c.id) s.player.originalQueue else 0) ∧
          (if 0 ≤ jsFindIndex (fun x => x.id = c.id) s.player.originalQueue then
            jsFindIndex (fun x => x.id = c.id) s.player.originalQueue else 0) <
            (s.player.originalQueue.length : Int)
        cases hf : findIdxOpt (fun x => x.id = c.id) s.player.originalQueue with
        | some n =>
          have hspec := (findIdxOpt_some_spec _ _ _ hf).1
          simp only [jsFindIndex, hf]
          rw [if_pos (show (0 : Int) ≤ (n : Int) by omega)]
          omega
        | none =>
          simp only [jsFindIndex, hf]
          rw [if_neg (show ¬ (0 : Int) ≤ (-1 : Int) by omega)]
          omega
      · intro hnone
        cases (show (some c : Option Song) = none from hnone)
      · intro hq
        exact absurd (show s.player.originalQueue = [] from hq) horig2

/-- Concrete sample tracks used by the concrete counterexamples and
witnesses below. -/
def songA : Song := ⟨"A", "Track A"⟩

/-- Second sample track. -/
def songB : Song := ⟨"B", "Track B"⟩

/-- Third sample track. -/
def songC : Song := ⟨"C", "Track C"⟩

/-- C1 (counterexample): the claimed invariant does not survive every
exported action from the initial state.  The initial state satisfies it,
but `addToQueue` on the idle player yields a non-empty queue with
`queueIndex = -1` (breaking the claimed "iff"), and `toggleShuffle` on the
idle player yields an empty queue with `queueIndex = 0` (breaking the
claimed "queue empty implies index -1" direction). -/
theorem c1_counterexample :
    QueueInvSpec (initialState 1) ∧
    ¬ QueueInvSpec (addToQueue (initialState 1) [songA]) ∧
    ¬ QueueInvSpec (toggleShuffle id (initialState 1)) := by
  refine ⟨by decide, by decide, by decide⟩

/-- C1 (amended): the invariant the code does maintain.  Whenever a current
track exists, `0 ≤ queueIndex < queue.length`; without a current track
`queueIndex = -1`; an empty queue has no current track.  This holds in the
initial state (for every persisted volume) and is preserved by every
exported action, where `playSong` is invoked with an index valid for the
queue it installs, `restoreQueueState` with a snapshot whose saved index is
`-1` or in range (as `clearQueue` returns from an invariant state), and
`toggleShuffle` while a track is current with a non-empty `originalQueue`
when shuffle is already on; consequently every reachable state satisfies
it.  The claimed direction "queueIndex = -1 only if the queue is empty"
is dropped, as forced by the counterexample. -/
theorem c1_invariant_preserved :
    (∀ v : ℚ, QueueInv (initCore v).player) ∧
    (∀ s s2 : CoreState, PStep s s2 → QueueInv s.player → QueueInv s2.player) ∧
    (∀ (v : ℚ) (s : CoreState), Relation.ReflTransGen PStep (initCore v) s →
      QueueInv s.player) := by
  have hinit : ∀ v : ℚ, QueueInv (initCore v).player := by
    intro v
    refine ⟨?_, ?_, ?_⟩ <;> simp [initCore, initialState]
  refine ⟨hinit, fun s s2 h hi => pstep_preserves h hi, ?_⟩
  intro v s h
  induction h with
  | refl => exact hinit v
  | tail hsteps hstep ih => exact pstep_preserves hstep ih

/-- C1 witness: the preservation theorem applied at a concrete step from
the initial state. -/
theorem c1_invariant_preserved_witness :
    QueueInv (playNext (initCore 1)).1.player :=
  c1_invariant_preserved.2.1 (initCore 1) (playNext (initCore 1)).1
    (PStep.playNextStep (initCore 1)) (c1_invariant_preserved.1 1)

/-- C2: on a non-empty queue with the index at the last position and a
current track, `playNext()` with repeat "all" wraps to index 0 and makes
the first queue entry current (the queue itself unchanged); with repeat
"off" it leaves the index and queue unchanged and sets `isPlaying` to
false. -/
theorem c2_playNext_at_last (s : CoreState)
    (hne : s.player.queue ≠ [])
    (hcur : s.player.currentTrack.isSome = true)
    (hlast : s.player.queueIndex = (s.player.queue.length : Int) - 1) :
    (s.player.repeatMode = RepeatMode.all →
      (playNext s).1.player.queueIndex = 0 ∧
      (playNext s).1.player.currentTrack = getAtInt s.player.queue 0 ∧
      (playNext s).1.player.queue = s.player.queue) ∧
    (s.player.repeatMode = RepeatMode.off →
      (playNext s).1.player.queueIndex = s.player.queueIndex ∧
      (playNext s).1.player.queue = s.player.queue ∧
      (playNext s).1.player.currentTrack = s.player.currentTrack ∧
      (playNext s).1.player.isPlaying = false) := by
  have hlen : ¬ s.player.queue.length = 0 := by
    simpa [List.length_eq_zero] using hne
  have hlenpos : (0 : Int) < (s.player.queue.length : Int) := by
    omega
  have hlt : ¬ s.player.queueIndex + 1 < (s.player.queue.length : Int) := by
    omega
  constructor
  · intro hall
    have hone : ¬ (s.player.repeatMode = RepeatMode.one ∧
        s.player.currentTrack.isSome = true) := by
      simp [hall]
    obtain ⟨t, ht⟩ := getAtInt_isSome _ 0 le_rfl hlenpos
    unfold playNext
    rw [if_neg hlen, if_neg hone, if_neg hlt, if_pos hall, ht]
    refine ⟨by simp [playSong], by simp [playSong, ht], by simp [playSong]⟩
  · intro hoff
    have hone : ¬ (s.player.repeatMode = RepeatMode.one ∧
        s.player.currentTrack.isSome = true) := by
      simp [hoff]
    have hall : ¬ s.player.repeatMode = RepeatMode.all := by
      simp [hoff]
    unfold playNext
    rw [if_neg hlen, if_neg hone, if_neg hlt, if_neg hall]
    exact ⟨rfl, rfl, rfl, rfl⟩

/-- Concrete state for the C2 witness: queue `[A, B]`, current track `B`
at the last index, repeat "all". -/
def c2WitState : CoreState where
  player :=
    { currentTrack := some songB
      queue := [songA, songB]
      originalQueue := [songA, songB]
      queueIndex := 1
      isPlaying := true
      volume := 1
      currentTime := 10
      duration := 120
      isLoading := false
      shuffle := false
      repeatMode := RepeatMode.all }
  scrobbledTrackId := none
  nowPlayingReported := some "B"
  backendType := BackendType.html5
  hasBackend := true

/-- C2 witness: the theorem applied at the concrete state. -/
theorem c2_playNext_at_last_witness :
    (c2WitState.player.repeatMode = RepeatMode.all →
      (playNext c2WitState).1.player.queueIndex = 0 ∧
      (playNext c2WitState).1.player.currentTrack = getAtInt c2WitState.player.queue 0 ∧
      (playNext c2WitState).1.player.queue = c2WitState.player.queue) ∧
    (c2WitState.player.repeatMode = RepeatMode.off →
      (playNext c2WitState).1.player.queueIndex = c2WitState.player.queueIndex ∧
      (playNext c2WitState).1.player.queue = c2WitState.player.queue ∧
      (playNext c2WitState).1.player.currentTrack = c2WitState.player.currentTrack ∧
      (playNext c2WitState).1.player.isPlaying = false) :=
  c2_playNext_at_last c2WitState (by decide) (by decide) (by decide)

theorem getAtInt_none_bounds {l : List Song} {i : Int}
    (h : getAtInt l i = none) (h0 : 0 ≤ i) : (l.length : Int) ≤ i := by
  unfold getAtInt at h
  rw [if_pos h0] at h
  have : ¬ i.toNat < l.length := by
    intro hlt
    rw [List.getElem?_eq_getElem hlt] at h
    cases h
  omega

/-- Recognizes a now-playing (non-final) scrobble report. -/
def isNowPlayingReport : Effect → Bool
  | Effect.scrobbleReport _ false => true
  | _ => false

/-- Recognizes a backend command that (re)starts playback of a source:
`play` or `setQueue`. -/
def isPlayCommand : Effect → Bool
  | Effect.backendPlay _ => true
  | Effect.backendSetQueue _ _ _ => true
  | _ => false

/-- C3: on an mpv auto-advance with a next track available
(`queueIndex + 1` in range), the core advances its index, makes that track
current, resets the elapsed time and the completed-scrobble bookkeeping,
reports now playing at most once (exactly once unless already reported for
that track), preloads the following track via `setQueueNext`, and issues no
`play`/`setQueue` backend command. -/
theorem c3_autoNext (s : CoreState) (t : Song)
    (hb : s.hasBackend = true)
    (hge : 0 ≤ s.player.queueIndex + 1)
    (hnext : getAtInt s.player.queue (s.player.queueIndex + 1) = some t) :
    (handleAutoNext s).1.player.queueIndex = s.player.queueIndex + 1 ∧
    (handleAutoNext s).1.player.currentTrack = some t ∧
    (handleAutoNext s).1.player.currentTime = 0 ∧
    (handleAutoNext s).1.scrobbledTrackId = none ∧
    ((handleAutoNext s).2.filter isNowPlayingReport).length =
      (if s.nowPlayingReported = some t.id then 0 else 1) ∧
    (∀ ft : Song, getAtInt s.player.queue (s.player.queueIndex + 1 + 1) = some ft →
      Effect.backendSetQueueNext (streamUrl ft.id) ∈ (handleAutoNext s).2) ∧
    (∀ e ∈ (handleAutoNext s).2, isPlayCommand e = false) := by
  have hlt := (getAtInt_some_bounds hnext).2
  have hcond : 0 ≤ s.player.queueIndex + 1 ∧
      s.player.queueIndex + 1 < (s.player.queue.length : Int) := ⟨hge, hlt⟩
  unfold handleAutoNext
  rw [if_pos hcond, hnext]
  cases hfol : getAtInt s.player.queue (s.player.queueIndex + 1 + 1) with
  | some ft =>
    have hfb := (getAtInt_some_bounds hfol).2
    by_cases hrep : s.nowPlayingReported = some t.id
    · refine ⟨?_, ?_, ?_, ?_, ?_, ?_, ?_⟩ <;>
        simp [hb, hrep, hfol, if_pos hfb, isNowPlayingReport, isPlayCommand]
    · refine ⟨?_, ?_, ?_, ?_, ?_, ?_, ?_⟩ <;>
        simp [hb, hrep, hfol, if_pos hfb, isNowPlayingReport, isPlayCommand]
  | none =>
    have hnf : ¬ (s.player.queueIndex + 1 + 1 < (s.player.queue.length : Int)) := by
      have := getAtInt_none_bounds hfol (by omega)
      omega
    by_cases hrep : s.nowPlayingReported = some t.id
    · refine ⟨?_, ?_, ?_, ?_, ?_, ?_, ?_⟩ <;>
        simp [hb, hrep, hfol, if_neg hnf, isNowPlayingReport, isPlayCommand]
    · refine ⟨?_, ?_, ?_, ?_, ?_, ?_, ?_⟩ <;>
        simp [hb, hrep, hfol, if_neg hnf, isNowPlayingReport, isPlayCommand]

/-- Concrete state for the C3 witness: queue `[A, B, C]`, current index 0,
an auto-advance moves to `B` and preloads `C`. -/
def c3WitState : CoreState where
  player :=
    { currentTrack := some songA
      queue := [songA, songB, songC]
      originalQueue := [songA, songB, songC]
      queueIndex := 0
      isPlaying := true
      volume := 1
      currentTime := 30
      duration := 120
      isLoading := false
      shuffle := false
      repeatMode := RepeatMode.off }
  scrobbledTrackId := some "A"
  nowPlayingReported := some "A"
  backendType := BackendType.mpv
  hasBackend := true

/-- C3 witness: the theorem applied at the concrete state. -/
theorem c3_autoNext_witness :
    (handleAutoNext c3WitState).1.player.queueIndex = c3WitState.player.queueIndex + 1 ∧
    (handleAutoNext c3WitState).1.player.currentTrack = some songB ∧
    (handleAutoNext c3WitState).1.player.currentTime = 0 ∧
    (handleAutoNext c3WitState).1.scrobbledTrackId = none ∧
    ((handleAutoNext c3WitState).2.filter isNowPlayingReport).length =
      (if c3WitState.nowPlayingReported = some songB.id then 0 else 1) ∧
    (∀ ft : Song,
      getAtInt c3WitState.player.queue (c3WitState.player.queueIndex + 1 + 1) = some ft →
      Effect.backendSetQueueNext (streamUrl ft.id) ∈ (handleAutoNext c3WitState).2) ∧
    (∀ e ∈ (handleAutoNext c3WitState).2, isPlayCommand e = false) :=
  c3_autoNext c3WitState songB (by decide) (by decide) (by decide)

/-- A time-update event `(time, duration)` reaching the completed-scrobble
threshold: known duration and elapsed time at least
`min(240, duration * 0.5)`. -/
def eventQualifies (e : ℚ × ℚ) : Bool :=
  decide (0 < e.2 ∧ min 240 (e.2 * (1/2)) ≤ e.1)

/-- Position (counting from `k`) of the first qualifying event. -/
def firstQualIdx : List (ℚ × ℚ) → Nat → Option Nat
  | [], _ => none
  | e :: rest, k => if eventQualifies e then some k else firstQualIdx rest (k + 1)

/-- Run a sequence of `onTimeUpdate` events, collecting the completed
scrobble reports tagged with the index of the event that emitted them. -/
def runTimeUpdatesAux : CoreState → List (ℚ × ℚ) → Nat → CoreState × List (Nat × String)
  | s, [], _ => (s, [])
  | s, e :: rest, k =>
    let r := onTimeUpdate s e.1 e.2
    let tagged : List (Nat × String) :=
      r.2.filterMap fun eff =>
        match eff with
        | Effect.scrobbleReport i true => some (k, i)
        | _ => none
    let r2 := runTimeUpdatesAux r.1 rest (k + 1)
    (r2.1, tagged ++ r2.2)

/-- Run a sequence of `onTimeUpdate` events from event index 0. -/
def runTimeUpdates (s : CoreState) (events : List (ℚ × ℚ)) :
    CoreState × List (Nat × String) :=
  runTimeUpdatesAux s events 0

theorem onTimeUpdate_already (s : CoreState) (t : Song) (time duration : ℚ)
    (h1 : s.player.currentTrack = some t) (h2 : s.scrobbledTrackId = some t.id) :
    onTimeUpdate s time duration =
      ({ s with player := { s.player with currentTime := time, duration := duration } },
       []) := by
  unfold onTimeUpdate
  simp only [h1, h2]
  rw [if_neg (by simp)]

theorem onTimeUpdate_miss (s : CoreState) (t : Song) (time duration : ℚ)
    (h1 : s.player.currentTrack = some t) (h2 : s.scrobbledTrackId = none)
    (hq : eventQualifies (time, duration) = false) :
    onTimeUpdate s time duration =
      ({ s with player := { s.player with currentTime := time, duration := duration } },
       []) := by
  simp only [eventQualifies, decide_eq_false_iff_not, not_and, not_le] at hq
  unfold onTimeUpdate
  simp only [h1, h2]
  by_cases hd : (0 : ℚ) < duration
  · rw [if_pos (by simp [hd]), if_neg (by simpa using hq hd)]
  · rw [if_neg (by simp [hd])]

theorem onTimeUpdate_hit (s : CoreState) (t : Song) (time duration : ℚ)
    (h1 : s.player.currentTrack = some t) (h2 : s.scrobbledTrackId = none)
    (hq : eventQualifies (time, duration) = true) :
    onTimeUpdate s time duration =
      ({ s with
          player := { s.player with currentTime := time, duration := duration }
          scrobbledTrackId := some t.id },
       [Effect.scrobbleReport t.id true]) := by
  simp only [eventQualifies, decide_eq_true_eq] at hq
  unfold onTimeUpdate
  simp only [h1, h2]
  rw [if_pos (by simp [hq.1]), if_pos (by simpa using hq.2)]

theorem runAux_scrobbled (t : Song) (events : List (ℚ × ℚ)) :
    ∀ (k : Nat) (s : CoreState),
    s.player.currentTrack = some t → s.scrobbledTrackId = some t.id →
    (runTimeUpdatesAux s events k).2 = [] := by
  induction events with
  | nil => intro k s _ _; rfl
  | cons e rest ih =>
    intro k s h1 h2
    show (runTimeUpdatesAux s (e :: rest) k).2 = []
    unfold runTimeUpdatesAux
    rw [onTimeUpdate_already s t e.1 e.2 h1 h2]
    simpa using ih (k + 1)
      { s with player := { s.player with currentTime := e.1, duration := e.2 } } h1 h2

theorem runAux_spec (t : Song) (events : List (ℚ × ℚ)) :
    ∀ (k : Nat) (s : CoreState),
    s.player.currentTrack = some t → s.scrobbledTrackId = none →
    (runTimeUpdatesAux s events k).2 =
      (match firstQualIdx events k with
       | some j => [(j, t.id)]
       | none => []) := by
  induction events with
  | nil => intro k s _ _; rfl
  | cons e rest ih =>
    intro k s h1 h2
    show (runTimeUpdatesAux s (e :: rest) k).2 = _
    unfold runTimeUpdatesAux firstQualIdx
    by_cases hq : eventQualifies e = true
    · rw [onTimeUpdate_hit s t e.1 e.2 h1 h2 hq, if_pos hq]
      have hdone := runAux_scrobbled t rest (k + 1)
        { s with
          player := { s.player with currentTime := e.1, duration := e.2 }
          scrobbledTrackId := some t.id } h1 rfl
      simp [hdone]
    · have hq' : eventQualifies e = false := by simpa using hq
      rw [onTimeUpdate_miss s t e.1 e.2 h1 h2 hq', if_neg (by simp [hq'])]
      simpa using ih (k + 1)
        { s with player := { s.player with currentTime := e.1, duration := e.2 } } h1 h2

/-- C4: starting from a state where a track is current and the completed
scrobble is not yet booked (as `playSong` and `handleAutoNext` leave it),
running any sequence of time updates emits the completed report exactly at
the first event reaching `min(240, duration/2)` with known duration — so at
most once, however many events pass the threshold — and both `playSong`
and a successful `handleAutoNext` reset the bookkeeping so a new play can
report again. -/
theorem c4_scrobble_once (s : CoreState) (t : Song) (events : List (ℚ × ℚ))
    (h1 : s.player.currentTrack = some t) (h2 : s.scrobbledTrackId = none) :
    ((runTimeUpdates s events).2 =
      match firstQualIdx events 0 with
      | some j => [(j, t.id)]
      | none => []) ∧
    (runTimeUpdates s events).2.length ≤ 1 ∧
    (∀ (s2 : CoreState) (song : Song) (qArg : Option (List Song)) (idx : Option Int),
      (playSong s2 song qArg idx).1.scrobbledTrackId = none) ∧
    (∀ (s3 : CoreState) (u : Song),
      0 ≤ s3.player.queueIndex + 1 →
      getAtInt s3.player.queue (s3.player.queueIndex + 1) = some u →
      (handleAutoNext s3).1.scrobbledTrackId = none) := by
  have hmain := runAux_spec t events 0 s h1 h2
  refine ⟨hmain, ?_, ?_, ?_⟩
  · rw [show (runTimeUpdates s events).2 = (runTimeUpdatesAux s events 0).2 from rfl, hmain]
    cases firstQualIdx events 0 <;> simp
  · intro s2 song qArg idx
    simp [playSong]
  · intro s3 u hge hnext
    have hlt := (getAtInt_some_bounds hnext).2
    unfold handleAutoNext
    rw [if_pos ⟨hge, hlt⟩, hnext]
    by_cases hrep : s3.nowPlayingReported = some u.id <;> simp [hrep]

/-- Concrete state for the C4 witness: a fresh play of track `A` on a
100-second stream, nothing scrobbled yet. -/
def c4WitState : CoreState :=
  { c3WitState with scrobbledTrackId := none }

/-- C4 witness: three updates on a 100-second track from a fresh play;
only the second one (first past the 50-percent threshold) scrobbles. -/
theorem c4_scrobble_once_witness :
    ((runTimeUpdates c4WitState [(10, 100), (60, 100), (90, 100)]).2 =
      match firstQualIdx [((10 : ℚ), (100 : ℚ)), (60, 100), (90, 100)] 0 with
      | some j => [(j, songA.id)]
      | none => []) ∧
    (runTimeUpdates c4WitState [(10, 100), (60, 100), (90, 100)]).2.length ≤ 1 ∧
    (∀ (s2 : CoreState) (song : Song) (qArg : Option (List Song)) (idx : Option Int),
      (playSong s2 song qArg idx).1.scrobbledTrackId = none) ∧
    (∀ (s3 : CoreState) (u : Song),
      0 ≤ s3.player.queueIndex + 1 →
      getAtInt s3.player.queue (s3.player.queueIndex + 1) = some u →
      (handleAutoNext s3).1.scrobbledTrackId = none) :=
  c4_scrobble_once c4WitState songA [(10, 100), (60, 100), (90, 100)]
    (by decide) (by decide)

/-- Concrete pre-toggle state for the C5 counterexample: a stale
`originalQueue` `[A]` left over from an earlier play, current queue
`[B, C]` with `B` current.  Reachable via `playSong(A)` followed by
`playSong(B, [B, C], 0)`, which keeps the non-empty `originalQueue`. -/
def c5CexState : PlayerState where
  currentTrack := some songB
  queue := [songB, songC]
  originalQueue := [songA]
  queueIndex := 0
  isPlaying := true
  volume := 1
  currentTime := 0
  duration := 0
  isLoading := false
  shuffle := false
  repeatMode := RepeatMode.off

/-- C5 (counterexample): from a state whose current track is in the queue
but whose `originalQueue` is stale, toggling shuffle twice does not restore
the queue, and the resulting index points at a different track identifier. -/
theorem c5_counterexample :
    c5CexState.currentTrack = some songB ∧
    songB ∈ c5CexState.queue ∧
    (toggleShuffle id (toggleShuffle id c5CexState)).queue ≠ c5CexState.queue ∧
    getAtInt (toggleShuffle id (toggleShuffle id c5CexState)).queue
      (toggleShuffle id (toggleShuffle id c5CexState)).queueIndex = some songA ∧
    songA.id ≠ songB.id := by
  decide

/-- C5 (amended): when shuffle is off, the current track is in the queue,
and `originalQueue` is either empty or equal to the queue (no stale
original order), enabling shuffle puts the current track at index 0 with
only the remainder shuffled, and toggling twice restores the original
queue with the index pointing at an entry carrying the identifier of the
current track. -/
theorem c5_toggleShuffle_amended (p : PlayerState) (cur : Song)
    (sh sh2 : List Song → List Song)
    (hc : p.currentTrack = some cur)
    (hmem : cur ∈ p.queue)
    (hsh : p.shuffle = false)
    (horig : p.originalQueue = p.queue ∨ p.originalQueue = []) :
    ((toggleShuffle sh p).queue = cur :: sh (filterOutIdx p.queue p.queueIndex) ∧
      (toggleShuffle sh p).queueIndex = 0 ∧
      (toggleShuffle sh p).currentTrack = some cur) ∧
    ((toggleShuffle sh2 (toggleShuffle sh p)).queue = p.queue ∧
      ∃ e : Song,
        getAtInt (toggleShuffle sh2 (toggleShuffle sh p)).queue
          (toggleShuffle sh2 (toggleShuffle sh p)).queueIndex = some e ∧
        e.id = cur.id) := by
  have horg : (if 0 < p.originalQueue.length then p.originalQueue else p.queue) = p.queue := by
    rcases horig with h | h <;> simp [h]
  have e1 : toggleShuffle sh p =
      { p with
        shuffle := true
        originalQueue := p.queue
        queue := cur :: sh (filterOutIdx p.queue p.queueIndex)
        queueIndex := 0 } := by
    unfold toggleShuffle
    rw [if_pos hsh, hc, horg]
  obtain ⟨n, hn⟩ := findIdxOpt_isSome_of_mem (fun x => x.id = cur.id) p.queue cur hmem
    (by simp)
  obtain ⟨hlt, e, he, hid⟩ := findIdxOpt_some_spec _ _ _ hn
  refine ⟨⟨?_, ?_, ?_⟩, ?_, ?_⟩
  · rw [e1]
  · rw [e1]
  · rw [e1]
    exact hc
  · rw [e1]
    unfold toggleShuffle
    rw [if_neg (by simp)]
  · rw [e1]
    unfold toggleShuffle
    rw [if_neg (by simp)]
    simp only [hc, jsFindIndex, hn]
    rw [if_pos (by omega)]
    refine ⟨e, ?_, by simpa using hid⟩
    simp [getAtInt, he]

/-- Concrete state for the C5 witness: queue `[A, B]` with `A` current and
a matching `originalQueue`. -/
def c5WitState : PlayerState where
  currentTrack := some songA
  queue := [songA, songB]
  originalQueue := [songA, songB]
  queueIndex := 0
  isPlaying := true
  volume := 1
  currentTime := 0
  duration := 0
  isLoading := false
  shuffle := false
  repeatMode := RepeatMode.off

/-- C5 witness: the amended theorem applied at the concrete state with the
identity shuffles. -/
theorem c5_toggleShuffle_amended_witness :
    ((toggleShuffle id c5WitState).queue =
        songA :: id (filterOutIdx c5WitState.queue c5WitState.queueIndex) ∧
      (toggleShuffle id c5WitState).queueIndex = 0 ∧
      (toggleShuffle id c5WitState).currentTrack = some songA) ∧
    ((toggleShuffle id (toggleShuffle id c5WitState)).queue = c5WitState.queue ∧
      ∃ e : Song,
        getAtInt (toggleShuffle id (toggleShuffle id c5WitState)).queue
          (toggleShuffle id (toggleShuffle id c5WitState)).queueIndex = some e ∧
        e.id = songA.id) :=
  c5_toggleShuffle_amended c5WitState songA id id (by decide) (by decide) (by decide)
    (Or.inl (by decide))

/-- C6: with a current track sitting at the queue index and more than one
queue entry, `clearQueue` collapses the queue to exactly the current track
at index 0 and returns the prior queue state, and feeding that state to
`restoreQueueState` restores the player state exactly; with a single-entry
queue `clearQueue` resets to the initial state (keeping the volume) and
stops the backend, still returning the prior state. -/
theorem c6_clearQueue_restore (p : PlayerState) (t : Song)
    (hc : p.currentTrack = some t)
    (hq : getAtInt p.queue p.queueIndex = some t) :
    (1 < p.queue.length →
      clearQueue p =
        ({ p with queue := [t], originalQueue := [t], queueIndex := 0 },
         ⟨p.queue, p.originalQueue, p.queueIndex⟩, []) ∧
      restoreQueueState { p with queue := [t], originalQueue := [t], queueIndex := 0 }
        ⟨p.queue, p.originalQueue, p.queueIndex⟩ = p) ∧
    (p.queue.length = 1 →
      (clearQueue p).1 = { initialState p.volume with volume := p.volume } ∧
      (clearQueue p).2.1 = ⟨p.queue, p.originalQueue, p.queueIndex⟩ ∧
      (clearQueue p).2.2 = [Effect.backendStop]) := by
  have hlen0 : ¬ p.queue.length = 0 := by
    have hb := getAtInt_some_bounds hq
    omega
  constructor
  · intro hlen
    constructor
    · simp [clearQueue, hc, hlen]
    · have hres : getAtInt p.queue p.queueIndex = p.currentTrack := by rw [hq, hc]
      simp [restoreQueueState, hlen0, hres]
  · intro hlen1
    have hnot : ¬ 1 < p.queue.length := by omega
    refine ⟨?_, ?_, ?_⟩ <;> simp [clearQueue, hc, hnot]

/-- Concrete state for the C6 witness: queue `[A, B, C]` with `B` current
at index 1. -/
def c6WitState : PlayerState where
  currentTrack := some songB
  queue := [songA, songB, songC]
  originalQueue := [songA, songB, songC]
  queueIndex := 1
  isPlaying := true
  volume := 1
  currentTime := 42
  duration := 200
  isLoading := false
  shuffle := false
  repeatMode := RepeatMode.off

/-- C6 witness: the theorem applied at the concrete state. -/
theorem c6_clearQueue_restore_witness :
    (1 < c6WitState.queue.length →
      clearQueue c6WitState =
        ({ c6WitState with queue := [songB], originalQueue := [songB], queueIndex := 0 },
         ⟨c6WitState.queue, c6WitState.originalQueue, c6WitState.queueIndex⟩, []) ∧
      restoreQueueState
        { c6WitState with queue := [songB], originalQueue := [songB], queueIndex := 0 }
        ⟨c6WitState.queue, c6WitState.originalQueue, c6WitState.queueIndex⟩ = c6WitState) ∧
    (c6WitState.queue.length = 1 →
      (clearQueue c6WitState).1 =
        { initialState c6WitState.volume with volume := c6WitState.volume } ∧
      (clearQueue c6WitState).2.1 =
        ⟨c6WitState.queue, c6WitState.originalQueue, c6WitState.queueIndex⟩ ∧
      (clearQueue c6WitState).2.2 = [Effect.backendStop]) :=
  c6_clearQueue_restore c6WitState songB (by decide) (by decide)

/-- C7: with a current track, removing the entry at the current index is
rejected: the call returns `null` and the state is completely unchanged. -/
theorem c7_remove_current_noop (p : PlayerState) (i : Nat)
    (hc : p.currentTrack.isSome = true)
    (hi : (i : Int) = p.queueIndex) :
    removeFromQueue p i = (p, none) := by
  unfold removeFromQueue
  rw [if_pos ⟨hi, hc⟩]

/-- C7 witness: the theorem applied at the concrete C6 state, removing the
current index 1. -/
theorem c7_remove_current_noop_witness :
    removeFromQueue c6WitState 1 = (c6WitState, none) :=
  c7_remove_current_noop c6WitState 1 (by decide) (by decide)

/-- Concrete state for the C8 counterexample: a non-empty queue with no
current position (`queueIndex = -1`, as `addToQueue` on an idle player
leaves it) and repeat "all". -/
def c8CexState : CoreState where
  player :=
    { currentTrack := none
      queue := [songA, songB]
      originalQueue := [songA, songB]
      queueIndex := -1
      isPlaying := false
      volume := 1
      currentTime := 0
      duration := 0
      isLoading := false
      shuffle := false
      repeatMode := RepeatMode.all }
  scrobbledTrackId := none
  nowPlayingReported := none
  backendType := BackendType.html5
  hasBackend := false

/-- C8 (counterexample): on a non-empty queue with `queueIndex = -1`,
`currentTime ≤ 3`, `queueIndex - 1 < 0` and `queueIndex ≠ 0`, the claim
predicts a restart at time 0 with the index unchanged, but `playPrevious`
wraps to the last index (repeat "all") and changes the index to 1. -/
theorem c8_counterexample :
    c8CexState.player.queue ≠ [] ∧
    c8CexState.player.currentTime ≤ 3 ∧
    ¬ (0 ≤ c8CexState.player.queueIndex - 1) ∧
    c8CexState.player.queueIndex ≠ 0 ∧
    (playPrevious c8CexState).1.player.queueIndex ≠ c8CexState.player.queueIndex ∧
    (playPrevious c8CexState).1.player.queueIndex = 1 := by
  decide

/-- C8 (amended): on a non-empty queue with a valid current position
(`0 ≤ queueIndex < queue.length`): more than 3 seconds in, `playPrevious`
restarts the current track (time 0, index unchanged, only a seek issued);
otherwise it moves to the previous index when one exists, wraps to the
last index when at index 0 with repeat "all", and restarts at time 0 with
the index unchanged when at index 0 otherwise. -/
theorem c8_playPrevious_amended (s : CoreState)
    (hne : s.player.queue ≠ [])
    (hge : 0 ≤ s.player.queueIndex)
    (hlt : s.player.queueIndex < (s.player.queue.length : Int)) :
    (3 < s.player.currentTime →
      (playPrevious s).1.player.currentTime = 0 ∧
      (playPrevious s).1.player.queueIndex = s.player.queueIndex ∧
      (playPrevious s).2 = [Effect.backendSeek 0]) ∧
    (s.player.currentTime ≤ 3 →
      (1 ≤ s.player.queueIndex →
        (playPrevious s).1.player.queueIndex = s.player.queueIndex - 1 ∧
        (playPrevious s).1.player.currentTrack =
          getAtInt s.player.queue (s.player.queueIndex - 1)) ∧
      (s.player.queueIndex = 0 ∧ s.player.repeatMode = RepeatMode.all →
        (playPrevious s).1.player.queueIndex = (s.player.queue.length : Int) - 1 ∧
        (playPrevious s).1.player.currentTrack =
          getAtInt s.player.queue ((s.player.queue.length : Int) - 1)) ∧
      (s.player.queueIndex = 0 ∧ s.player.repeatMode ≠ RepeatMode.all →
        (playPrevious s).1.player.currentTime = 0 ∧
        (playPrevious s).1.player.queueIndex = s.player.queueIndex ∧
        (playPrevious s).2 = [Effect.backendSeek 0])) := by
  have hlen : ¬ s.player.queue.length = 0 := by
    simpa [List.length_eq_zero] using hne
  constructor
  · intro ht
    unfold playPrevious
    rw [if_neg hlen, if_pos ht]
    exact ⟨rfl, rfl, rfl⟩
  · intro ht
    have hnt : ¬ 3 < s.player.currentTime := not_lt.mpr ht
    refine ⟨?_, ?_, ?_⟩
    · intro h1
      have hp : 0 ≤ s.player.queueIndex - 1 := by omega
      have hub : s.player.queueIndex - 1 < (s.player.queue.length : Int) := by omega
      obtain ⟨t, ht'⟩ := getAtInt_isSome _ _ hp hub
      unfold playPrevious
      rw [if_neg hlen, if_neg hnt, if_pos hp, ht']
      exact ⟨by simp [playSong], by simp [playSong, ht']⟩
    · rintro ⟨h0, hall⟩
      have hp : ¬ 0 ≤ s.player.queueIndex - 1 := by omega
      have hge2 : (0 : Int) ≤ (s.player.queue.length : Int) - 1 := by omega
      have hub : (s.player.queue.length : Int) - 1 < (s.player.queue.length : Int) := by
        omega
      obtain ⟨t, ht'⟩ := getAtInt_isSome _ _ hge2 hub
      unfold playPrevious
      rw [if_neg hlen, if_neg hnt, if_neg hp, if_pos hall, ht']
      exact ⟨by simp [playSong], by simp [playSong, ht']⟩
    · rintro ⟨h0, hall⟩
      have hp : ¬ 0 ≤ s.player.queueIndex - 1 := by omega
      unfold playPrevious
      rw [if_neg hlen, if_neg hnt, if_neg hp, if_neg hall]
      exact ⟨rfl, rfl, rfl⟩

/-- Concrete state for the C8 witness: queue `[A, B]`, current index 1,
1 second in. -/
def c8WitState : CoreState where
  player :=
    { currentTrack := some songB
      queue := [songA, songB]
      originalQueue := [songA, songB]
      queueIndex := 1
      isPlaying := true
      volume := 1
      currentTime := 1
      duration := 120
      isLoading := false
      shuffle := false
      repeatMode := RepeatMode.off }
  scrobbledTrackId := none
  nowPlayingReported := some "B"
  backendType := BackendType.html5
  hasBackend := true

/-- C8 witness: the amended theorem applied at the concrete state. -/
theorem c8_playPrevious_amended_witness :
    (3 < c8WitState.player.currentTime →
      (playPrevious c8WitState).1.player.currentTime = 0 ∧
      (playPrevious c8WitState).1.player.queueIndex = c8WitState.player.queueIndex ∧
      (playPrevious c8WitState).2 = [Effect.backendSeek 0]) ∧
    (c8WitState.player.currentTime ≤ 3 →
      (1 ≤ c8WitState.player.queueIndex →
        (playPrevious c8WitState).1.player.queueIndex = c8WitState.player.queueIndex - 1 ∧
        (playPrevious c8WitState).1.player.currentTrack =
          getAtInt c8WitState.player.queue (c8WitState.player.queueIndex - 1)) ∧
      (c8WitState.player.queueIndex = 0 ∧ c8WitState.player.repeatMode = RepeatMode.all →
        (playPrevious c8WitState).1.player.queueIndex =
          (c8WitState.player.queue.length : Int) - 1 ∧
        (playPrevious c8WitState).1.player.currentTrack =
          getAtInt c8WitState.player.queue ((c8WitState.player.queue.length : Int) - 1)) ∧
      (c8WitState.player.queueIndex = 0 ∧ c8WitState.player.repeatMode ≠ RepeatMode.all →
        (playPrevious c8WitState).1.player.currentTime = 0 ∧
        (playPrevious c8WitState).1.player.queueIndex = c8WitState.player.queueIndex ∧
        (playPrevious c8WitState).2 = [Effect.backendSeek 0])) :=
  c8_playPrevious_amended c8WitState (by decide) (by decide) (by decide)

theorem jsInsertAt_jsRemoveAt (l : List Song) : ∀ (j : Nat) (a : Song),
    l[j]? = some a → jsInsertAt (jsRemoveAt l j) j a = l := by
  induction l with
  | nil => intro j a h; simp at h
  | cons x xs ih =>
    intro j a h
    cases j with
    | zero =>
      have hx : x = a := by simpa using h
      subst hx
      simp [jsInsertAt, jsRemoveAt]
    | succ n =>
      have h' : xs[n]? = some a := by simpa using h
      have ihn := ih n a h'
      simp only [jsRemoveAt, jsInsertAt, List.take_succ_cons, List.drop_succ_cons,
        List.cons_append] at ihn ⊢
      rw [ihn]

/-- Concrete state for the C9 counterexample: shuffle on, queue `[B, A]`
with `B` current at index 0, original order `[A, B]`. -/
def c9CexState : PlayerState where
  currentTrack := some songB
  queue := [songB, songA]
  originalQueue := [songA, songB]
  queueIndex := 0
  isPlaying := true
  volume := 1
  currentTime := 0
  duration := 0
  isLoading := false
  shuffle := true
  repeatMode := RepeatMode.off

/-- C9 (counterexample): removing index 1 and re-inserting the returned
song at index 1 restores the queue and the index, but not the
`originalQueue`: position 1 of the original order held `B`, and the
re-insertion writes `A` there instead. -/
theorem c9_counterexample :
    (1 : Int) ≠ c9CexState.queueIndex ∧
    c9CexState.currentTrack.isSome = true ∧
    (removeFromQueue c9CexState 1).2 = some (some songA, 1) ∧
    (insertIntoQueue (removeFromQueue c9CexState 1).1 songA 1).queue =
      c9CexState.queue ∧
    (insertIntoQueue (removeFromQueue c9CexState 1).1 songA 1).queueIndex =
      c9CexState.queueIndex ∧
    (insertIntoQueue (removeFromQueue c9CexState 1).1 songA 1).originalQueue ≠
      c9CexState.originalQueue := by
  decide

/-- C9 (amended): when positions `j` of the queue and of the original
queue hold the same song (in particular whenever the two sequences agree,
e.g. with shuffle off) and `j` is not the current index,
`insertIntoQueue` of the returned song at the returned index is a exact
inverse of `removeFromQueue j`: the whole player state is restored. -/
theorem c9_remove_insert_amended (p : PlayerState) (j : Nat) (t : Song)
    (h1 : p.queue[j]? = some t)
    (h2 : p.originalQueue[j]? = some t)
    (h3 : (j : Int) ≠ p.queueIndex) :
    (removeFromQueue p j).2 = some (some t, j) ∧
    insertIntoQueue (removeFromQueue p j).1 t j = p := by
  have hguard : ¬ ((j : Int) = p.queueIndex ∧ p.currentTrack.isSome = true) := by
    intro hg
    exact h3 hg.1
  have eQ := jsInsertAt_jsRemoveAt p.queue j t h1
  have eO := jsInsertAt_jsRemoveAt p.originalQueue j t h2
  constructor
  · unfold removeFromQueue
    rw [if_neg hguard, h1]
  · unfold removeFromQueue insertIntoQueue
    rw [if_neg hguard]
    show ({ p with
        queue := jsInsertAt (jsRemoveAt p.queue j) j t
        originalQueue := jsInsertAt (jsRemoveAt p.originalQueue j) j t
        queueIndex :=
          if (j : Int) ≤ (if (j : Int) < p.queueIndex then p.queueIndex - 1
              else p.queueIndex) then
            (if (j : Int) < p.queueIndex then p.queueIndex - 1 else p.queueIndex) + 1
          else
            (if (j : Int) < p.queueIndex then p.queueIndex - 1 else p.queueIndex) } :
      PlayerState) = p
    have eI : (if (j : Int) ≤ (if (j : Int) < p.queueIndex then p.queueIndex - 1
          else p.queueIndex) then
          (if (j : Int) < p.queueIndex then p.queueIndex - 1 else p.queueIndex) + 1
        else
          (if (j : Int) < p.queueIndex then p.queueIndex - 1 else p.queueIndex)) =
        p.queueIndex := by
      split_ifs <;> omega
    rw [eQ, eO, eI]

/-- C9 witness: the amended theorem applied at the concrete C5 witness
state (shuffle off, both sequences equal), removing and re-inserting
index 1. -/
theorem c9_remove_insert_amended_witness :
    (removeFromQueue c5WitState 1).2 = some (some songB, 1) ∧
    insertIntoQueue (removeFromQueue c5WitState 1).1 songB 1 = c5WitState :=
  c9_remove_insert_amended c5WitState 1 songB (by decide) (by decide) (by decide)

/-- C10: `clearQueue` never changes the volume: on the collapse branch the
volume field is untouched, and on the full-reset branch the source spreads
`initialState` but explicitly overrides `volume` with the live value. -/
theorem c10_clearQueue_volume (p : PlayerState) :
    ((clearQueue p).1).volume = p.volume := by
  cases hct : p.currentTrack with
  | none => simp [clearQueue, hct, initialState]
  | some t =>
    by_cases h : 1 < p.queue.length
    · simp [clearQueue, hct, if_pos h]
    · simp [clearQueue, hct, if_neg h, initialState]

/-- C10 witness: the theorem applied at the concrete C6 state (volume 1,
collapse branch) and at the initial state (full-reset branch). -/
theorem c10_clearQueue_volume_witness :
    ((clearQueue c6WitState).1).volume = c6WitState.volume ∧
    ((clearQueue (initialState (1/2))).1).volume = (initialState (1/2)).volume :=
  ⟨c10_clearQueue_volume c6WitState, c10_clearQueue_volume (initialState (1/2))⟩

end Subsonic
